import Mathlib

/-!
Shallow embedding of the music-theory engine of the guitar-chord-explorer
repository: the note model, the chord-identifier service, the fretboard
service and the music-theory (scale/diatonic-chord) service, together with
theorems checking the natural-language specification against them.

JavaScript machine numbers only ever carry small non-negative integers or
exact multiples of 0.05 here, so they are embedded as Nat / Int / ℚ.
-/

set_option allowUnsafeReducibility true
attribute [local semireducible] Rat.mul Rat.inv Rat.add Rat.sub Rat.ofScientific

/-- Note record shared by every part of the code base: a pitch string, an
accidental string and an optional octave. -/
structure Note where
  pitch : String
  accidental : String
  octave : Option Int := none
deriving DecidableEq, Repr, Inhabited

/-- JavaScript Array.prototype.indexOf on a list of strings: first index of
the element, or -1 when it is absent. -/
def jsIndexOf (l : List String) (s : String) : Int :=
  match l with
  | [] => -1
  | a :: t =>
    if a = s then 0
    else
      let r := jsIndexOf t s
      if r = -1 then -1 else r + 1

/-- JavaScript Array.prototype.findIndex: first index satisfying the
predicate, or -1 when none does. -/
def jsFindIndex {α : Type} (p : α → Bool) : List α → Int
  | [] => -1
  | a :: t =>
    if p a then 0
    else
      let r := jsFindIndex p t
      if r = -1 then -1 else r + 1

/-- Character membership in a string, on the underlying character list (the
kernel can evaluate this, unlike the byte-position based core function). -/
def strContains (s : String) (c : Char) : Bool := s.data.contains c

/-- First n characters of a string, on the underlying character list. -/
def strTake (s : String) (n : Nat) : String := String.mk (s.data.take n)

/-- Characters of a string after the first n, on the underlying character
list. -/
def strDrop (s : String) (n : Nat) : String := String.mk (s.data.drop n)

/-- Lower-casing of a string, on the underlying character list. -/
def strToLower (s : String) : String := String.mk (s.data.map Char.toLower)

/-- Removal of the first occurrence of a character from a character list. -/
def removeFirstChar : List Char → Char → List Char
  | [], _ => []
  | a :: t, c => if a = c then t else a :: removeFirstChar t c

/-- JavaScript String.prototype.replace with a one-character pattern and an
empty replacement: drops the first occurrence of the character. -/
def jsReplaceFirst (s : String) (c : Char) : String :=
  String.mk (removeFirstChar s.data c)

namespace ChordIdentifier

/-- Chromatic table of ChordIdentifierService (sharp spellings only). -/
def CHROMATIC_SCALE : List String :=
  ["C", "C#", "D", "D#", "E", "F"] ++ ["F#", "G", "G#", "A", "A#", "B"]

/-- Chord formulas, in the insertion order of the CHORD_FORMULAS object
(Object.entries preserves it). -/
def CHORD_FORMULAS : List (String × List Nat) :=
  [("major", [0, 4, 7]),
   ("minor", [0, 3, 7]),
   ("diminished", [0, 3, 6]),
   ("augmented", [0, 4, 8]),
   ("major7", [0, 4, 7, 11]),
   ("minor7", [0, 3, 7, 10]),
   ("dominant7", [0, 4, 7, 10]),
   ("diminished7", [0, 3, 6, 9]),
   ("half-diminished7", [0, 3, 6, 10]),
   ("sus2", [0, 2, 7]),
   ("sus4", [0, 5, 7]),
   ("add9", [0, 4, 7, 14]),
   ("maj9", [0, 4, 7, 11, 14]),
   ("min9", [0, 3, 7, 10, 14])]

/-- Chord record: quality is kept as the TypeScript string literal. -/
structure Chord where
  root : Note
  quality : String
  notes : List Note
  romanNumeral : String
  displayName : String
deriving DecidableEq, Repr, Inhabited

/-- Entry of the appearsInKeys list of a ChordMatch. -/
structure KeyAppearance where
  key : Note
  romanNumeral : String
  scaleType : String
deriving DecidableEq, Repr, Inhabited

/-- ChordMatch interface of the chord-identifier service. -/
structure ChordMatch where
  chord : Chord
  confidence : ℚ
  missingNotes : List Note
  extraNotes : List Note
  appearsInKeys : List KeyAppearance
deriving DecidableEq, Repr, Inhabited

/-- ChordIdentifierService.getNoteIndex: chromatic index of pitch ++
accidental, silently 0 when the name is not in the table. -/
def getNoteIndex (note : Note) : Nat :=
  let noteName := note.pitch ++ note.accidental
  let index := jsIndexOf CHROMATIC_SCALE noteName
  if 0 ≤ index then index.toNat else 0

/-- ChordIdentifierService.indexToNote: note of a chromatic index, in the
standard separated format. -/
def indexToNote (index : Nat) : Note :=
  let noteName := CHROMATIC_SCALE.getD index ""
  if noteName.length = 1 then { pitch := noteName, accidental := "" }
  else { pitch := strTake noteName 1, accidental := strDrop noteName 1 }

/-- ChordIdentifierService.notesEqual: plain pitch and accidental string
comparison, no normalization. -/
def notesEqual (note1 note2 : Note) : Bool :=
  note1.pitch == note2.pitch && note1.accidental == note2.accidental

/-- ChordIdentifierService.getUniqueNotes: first occurrence of each
pitch ++ accidental key, octave dropped. -/
def getUniqueNotes (notes : List Note) : List Note :=
  (notes.foldl
    (fun (st : List String × List Note) note =>
      let key := note.pitch ++ note.accidental
      if st.1.contains key then st
      else (key :: st.1, st.2 ++ [{ pitch := note.pitch, accidental := note.accidental }]))
    ([], [])).2

/-- ChordIdentifierService.getChordDisplayName. -/
def getChordDisplayName (root : Note) (quality : String) : String :=
  let rootName := root.pitch ++ root.accidental
  let qualityMap : List (String × String) :=
    [("major", ""), ("minor", "m"), ("diminished", "dim"), ("augmented", "aug"),
     ("major7", "maj7"), ("minor7", "m7"), ("dominant7", "7"),
     ("diminished7", "dim7"), ("half-diminished7", "m7♭5"),
     ("sus2", "sus2"), ("sus4", "sus4"), ("add9", "add9"),
     ("maj9", "maj9"), ("min9", "m9")]
  rootName ++ ((qualityMap.lookup quality).getD "")

/-- ChordIdentifierService.getMajorScaleNotes. -/
def getMajorScaleNotes (root : Note) : List Note :=
  let intervals : List Nat := [0, 2, 4, 5, 7, 9, 11]
  let rootIndex := getNoteIndex root
  intervals.map (fun interval => indexToNote ((rootIndex + interval) % 12))

/-- ChordIdentifierService.getMinorScaleNotes. -/
def getMinorScaleNotes (root : Note) : List Note :=
  let intervals : List Nat := [0, 2, 3, 5, 7, 8, 10]
  let rootIndex := getNoteIndex root
  intervals.map (fun interval => indexToNote ((rootIndex + interval) % 12))

/-- ChordIdentifierService.getChordPositionInScale. -/
def getChordPositionInScale (chordRoot : Note) (scaleNotes : List Note) : Int :=
  jsFindIndex (fun note => notesEqual note chordRoot) scaleNotes

/-- ChordIdentifierService.getRomanNumeralForPosition. -/
def getRomanNumeralForPosition (position : Nat) (quality : String)
    (scaleType : String) : String :=
  let _ := scaleType
  let numerals := ["I", "II", "III", "IV", "V", "VI", "VII"]
  let numeral := numerals.getD position ""
  if quality = "minor" ∨ quality = "minor7" ∨ quality = "half-diminished7" then
    strToLower numeral
  else if quality = "diminished" ∨ quality = "diminished7" then
    strToLower numeral ++ "°"
  else numeral

/-- ChordIdentifierService.findKeysForChord: the 12 major then the 12
natural-minor keys whose scale contains the chord root. -/
def findKeysForChord (chord : Chord) : List KeyAppearance :=
  let majorResults := (List.range 12).filterMap (fun i =>
    let keyRoot := indexToNote i
    let scaleNotes := getMajorScaleNotes keyRoot
    let chordPosition := getChordPositionInScale chord.root scaleNotes
    if 0 ≤ chordPosition then
      some { key := keyRoot,
             romanNumeral :=
               getRomanNumeralForPosition chordPosition.toNat chord.quality "major",
             scaleType := "Major" }
    else none)
  let minorResults := (List.range 12).filterMap (fun i =>
    let keyRoot := indexToNote i
    let scaleNotes := getMinorScaleNotes keyRoot
    let chordPosition := getChordPositionInScale chord.root scaleNotes
    if 0 ≤ chordPosition then
      some { key := keyRoot,
             romanNumeral :=
               getRomanNumeralForPosition chordPosition.toNat chord.quality "minor",
             scaleType := "Minor" }
    else none)
  majorResults ++ minorResults

/-- JavaScript Math.max on two rationals. -/
def jsMax (a b : ℚ) : ℚ := if a ≤ b then b else a

/-- Confidence computation of matchChord (its matchRatio, penaltyForExtras
and confidence lines, lifted to a function of the three list lengths). -/
def confidenceScore (matchedCount chordNoteCount extraCount : Nat) : ℚ :=
  let matchRatio : ℚ := (matchedCount : ℚ) / (chordNoteCount : ℚ)
  let penaltyForExtras : ℚ := (extraCount : ℚ) * 0.15
  jsMax 0 (matchRatio - penaltyForExtras)

/-- ChordIdentifierService.matchChord. -/
def matchChord (root : Note) (quality : String) (formula : List Nat)
    (selectedNotes : List Note) : Option ChordMatch :=
  let rootIndex := getNoteIndex root
  let chordNotes := formula.map (fun interval => indexToNote ((rootIndex + interval) % 12))
  let matchedNotes := chordNotes.filter (fun chordNote =>
    selectedNotes.any (fun selectedNote => notesEqual selectedNote chordNote))
  let missingNotes := chordNotes.filter (fun chordNote =>
    ! selectedNotes.any (fun selectedNote => notesEqual selectedNote chordNote))
  let extraNotes := selectedNotes.filter (fun selectedNote =>
    ! chordNotes.any (fun chordNote => notesEqual selectedNote chordNote))
  let confidence := confidenceScore matchedNotes.length chordNotes.length extraNotes.length
  if confidence = 0 then none
  else
    let chord : Chord :=
      { root := root, quality := quality, notes := chordNotes,
        romanNumeral := "", displayName := getChordDisplayName root quality }
    some { chord := chord, confidence := confidence,
           missingNotes := missingNotes, extraNotes := extraNotes,
           appearsInKeys := findKeysForChord chord }

/-- ChordIdentifierService.identifyChords: all (root, quality) candidates
over the unique input notes, kept only above confidence 0.5, sorted by
confidence descending with a stable sort (JavaScript sort is stable). -/
def identifyChords (selectedNotes : List Note) : List ChordMatch :=
  if selectedNotes.length = 0 then []
  else
    let uniqueNotes := getUniqueNotes selectedNotes
    if uniqueNotes.length = 0 then []
    else
      let matchList := uniqueNotes.flatMap (fun root =>
        CHORD_FORMULAS.filterMap (fun qf =>
          match matchChord root qf.1 qf.2 uniqueNotes with
          | some m => if (0.5 : ℚ) < m.confidence then some m else none
          | none => none))
      matchList.insertionSort (fun a b => b.confidence ≤ a.confidence)

end ChordIdentifier

namespace FretboardService

/-- Chromatic table of FretboardService (sharp spellings only). -/
def CHROMATIC_NOTES : List String :=
  ["C", "C#", "D", "D#", "E", "F"] ++ ["F#", "G", "G#", "A", "A#", "B"]

/-- Standard 6-string tuning, string 1 (high E) first. -/
def STANDARD_TUNING : List Note :=
  [{ pitch := "E", accidental := "", octave := some 4 },
   { pitch := "B", accidental := "", octave := some 3 },
   { pitch := "G", accidental := "", octave := some 3 },
   { pitch := "D", accidental := "", octave := some 3 },
   { pitch := "A", accidental := "", octave := some 2 },
   { pitch := "E", accidental := "", octave := some 2 }]

/-- FretboardService.getNoteIndex: chromatic index handling both note
formats, with enharmonic recovery and a final silent fallback to 0. -/
def getNoteIndex (note : Note) : Nat :=
  let noteName :=
    if strContains note.pitch '#' || strContains note.pitch 'b' then note.pitch
    else note.pitch ++ note.accidental
  let index := jsIndexOf CHROMATIC_NOTES noteName
  if index ≠ -1 then index.toNat
  else
    let basePitch := String.mk (note.pitch.toList.filter (fun c => ! (c == '#' || c == 'b')))
    let baseIndex0 := jsIndexOf CHROMATIC_NOTES basePitch
    let baseIndex :=
      if baseIndex0 = -1 then jsIndexOf CHROMATIC_NOTES (basePitch ++ "#") else baseIndex0
    if baseIndex ≠ -1 then
      if strContains note.pitch '#' || note.accidental == "#" then ((baseIndex + 1) % 12).toNat
      else if strContains note.pitch 'b' || note.accidental == "b" then
        ((baseIndex - 1 + 12) % 12).toNat
      else baseIndex.toNat
    else 0

/-- FretboardService.calculateOctave. -/
def calculateOctave (openOctave : Int) (openIndex : Nat) (fret : Nat) : Int :=
  let totalSemitones := openIndex + fret
  let octaveIncrease := totalSemitones / 12
  openOctave + octaveIncrease

/-- FretboardService.getNoteAtFret. -/
def getNoteAtFret (openString : Note) (fret : Nat) : Note :=
  let openStringIndex := getNoteIndex openString
  let noteIndex := (openStringIndex + fret) % 12
  let pitch := CHROMATIC_NOTES.getD noteIndex ""
  { pitch := jsReplaceFirst pitch '#',
    accidental := if strContains pitch '#' then "#" else "",
    octave := some (calculateOctave (openString.octave.getD 0) openStringIndex fret) }

/-- FretboardService.getNoteAtPosition: note of a string number (1-6) and
fret on the standard tuning. -/
def getNoteAtPosition (stringNum : Nat) (fret : Nat) : Note :=
  let openStringNote := STANDARD_TUNING.getD (stringNum - 1) default
  getNoteAtFret openStringNote fret

end FretboardService

namespace GuitarNoteModel

/-- Normalization helper of notesEqual of the guitar-chord-app note model:
the combined spelling string of a note, octave ignored. -/
def normalize (note : Note) : String :=
  if strContains note.pitch '#' || strContains note.pitch 'b' then note.pitch
  else note.pitch ++ note.accidental

/-- notesEqual of the guitar-chord-app note model: string comparison of the
normalized spellings, plus the octave when ignoreOctave is false. -/
def notesEqual (note1 note2 : Note) (ignoreOctave : Bool) : Bool :=
  let normalized1 := normalize note1
  let normalized2 := normalize note2
  if ignoreOctave then normalized1 == normalized2
  else normalized1 == normalized2 && note1.octave == note2.octave

/-- noteToString shared by the note models. -/
def noteToString (note : Note) : String :=
  note.pitch ++ note.accidental ++
    (match note.octave with
     | some o => toString o
     | none => "")

end GuitarNoteModel

namespace NoteModel

/-- Valid pitch letters of NoteFactory. -/
def VALID_PITCHES : List String := ["C", "D", "E", "F", "G", "A", "B"]

/-- Valid accidentals of NoteFactory. -/
def VALID_ACCIDENTALS : List String := ["", "#", "b"]

/-- NoteFactory.create: validates pitch and accidental and throws on either;
an out-of-range octave only triggers a console warning, the note is still
returned unchanged. -/
def create (pitch : String) (accidental : String) (octave : Option Int) :
    Except String Note :=
  if ! VALID_PITCHES.contains pitch then
    .error ("Invalid pitch: " ++ pitch ++ ". Must be C, D, E, F, G, A, or B")
  else if ! VALID_ACCIDENTALS.contains accidental then
    .error ("Invalid accidental: " ++ accidental)
  else
    .ok { pitch := pitch, accidental := accidental, octave := octave }

/-- Match of a character list against the anchored pattern of a note letter
A-G, an optional sharp or flat, and a digit tail; returns the three capture
groups of the pattern. -/
def matchNoteChars : List Char → Option (String × String × String)
  | [] => none
  | [c] =>
    if ['A', 'B', 'C', 'D', 'E', 'F', 'G'].contains c then
      some (String.mk [c], "", "")
    else none
  | c :: a :: rest2 =>
    if ['A', 'B', 'C', 'D', 'E', 'F', 'G'].contains c then
      if a = '#' ∨ a = 'b' then
        if rest2.all (fun d => d.isDigit) then
          some (String.mk [c], String.mk [a], String.mk rest2)
        else none
      else
        if (a :: rest2).all (fun d => d.isDigit) then
          some (String.mk [c], "", String.mk (a :: rest2))
        else none
    else none

/-- Match of a string against the note pattern, on its characters. -/
def matchNoteString (s : String) : Option (String × String × String) :=
  matchNoteChars s.toList

/-- JavaScript parseInt on a non-empty digit string. -/
def parseDigits (s : String) : Int :=
  s.toList.foldl (fun acc c => acc * 10 + ((c.toNat : Int) - 48)) 0

/-- NoteFactory.fromString: parses the compact string form through the
pattern match and hands the capture groups to create. -/
def fromString (noteString : String) : Except String Note :=
  match matchNoteString noteString with
  | none => .error ("Invalid note string: " ++ noteString)
  | some (pitch, accidental, octaveStr) =>
    let octave := if octaveStr ≠ "" then some (parseDigits octaveStr) else none
    create pitch accidental octave

/-- NoteFactory.isValid. -/
def isValid (note : Note) : Bool :=
  VALID_PITCHES.contains note.pitch &&
  VALID_ACCIDENTALS.contains note.accidental &&
  (match note.octave with
   | none => true
   | some o => decide (0 ≤ o) && decide (o ≤ 8))

/-- NoteFactory.normalize: splits a legacy combined pitch such as C# into
letter and accidental; create cannot fail on that path since the inner
pattern guarantees a valid letter and accidental. -/
def normalize (note : Note) : Note :=
  if note.pitch.length > 1 then
    match note.pitch.toList with
    | [l, a] =>
      if ['A', 'B', 'C', 'D', 'E', 'F', 'G'].contains l ∧ (a = '#' ∨ a = 'b') then
        { pitch := String.mk [l], accidental := String.mk [a], octave := note.octave }
      else note
    | _ => note
  else note

/-- notesEqual of the refactored note model: normalizes both notes then
compares pitch and accidental, plus octave when ignoreOctave is false. -/
def notesEqual (note1 note2 : Note) (ignoreOctave : Bool) : Bool :=
  let n1 := normalize note1
  let n2 := normalize note2
  let pitchMatch := n1.pitch == n2.pitch && n1.accidental == n2.accidental
  if ignoreOctave then pitchMatch
  else pitchMatch && (n1.octave == n2.octave)

end NoteModel

/-- ScaleType union of the models. -/
inductive ScaleType where
  | major
  | natural_minor
  | harmonic_minor
  | melodic_minor
deriving DecidableEq, Repr

/-- List of all four scale types, in the declaration order of the union. -/
def ScaleType.all : List ScaleType :=
  [.major, .natural_minor, .harmonic_minor, .melodic_minor]

namespace MusicTheory

open ChordIdentifier (Chord)

/-- Chromatic table of MusicTheoryService (sharp spellings only). -/
def CHROMATIC_SCALE : List String :=
  ["C", "C#", "D", "D#", "E", "F"] ++ ["F#", "G", "G#", "A", "A#", "B"]

/-- Scale formulas (intervals in semitones from root). -/
def SCALE_FORMULAS : ScaleType → List Nat
  | .major => [0, 2, 4, 5, 7, 9, 11]
  | .natural_minor => [0, 2, 3, 5, 7, 8, 10]
  | .harmonic_minor => [0, 2, 3, 5, 7, 8, 11]
  | .melodic_minor => [0, 2, 3, 5, 7, 9, 11]

/-- Per-degree quality and Roman numeral entry of the triad and seventh
tables. -/
structure DegreeFormula where
  quality : String
  roman : String
deriving DecidableEq, Repr, Inhabited

/-- Triad table of the major scale. -/
def MAJOR_TRIADS : List DegreeFormula :=
  [⟨"major", "I"⟩, ⟨"minor", "ii"⟩, ⟨"minor", "iii"⟩, ⟨"major", "IV"⟩,
   ⟨"major", "V"⟩, ⟨"minor", "vi"⟩, ⟨"diminished", "vii°"⟩]

/-- Triad table of the natural minor scale. -/
def NATURAL_MINOR_TRIADS : List DegreeFormula :=
  [⟨"minor", "i"⟩, ⟨"diminished", "ii°"⟩, ⟨"major", "III"⟩, ⟨"minor", "iv"⟩,
   ⟨"minor", "v"⟩, ⟨"major", "VI"⟩, ⟨"major", "VII"⟩]

/-- Triad table of the harmonic minor scale. -/
def HARMONIC_MINOR_TRIADS : List DegreeFormula :=
  [⟨"minor", "i"⟩, ⟨"diminished", "ii°"⟩, ⟨"augmented", "III+"⟩, ⟨"minor", "iv"⟩,
   ⟨"major", "V"⟩, ⟨"major", "VI"⟩, ⟨"diminished", "vii°"⟩]

/-- Triad table of the melodic minor scale. -/
def MELODIC_MINOR_TRIADS : List DegreeFormula :=
  [⟨"minor", "i"⟩, ⟨"minor", "ii"⟩, ⟨"augmented", "III+"⟩, ⟨"major", "IV"⟩,
   ⟨"major", "V"⟩, ⟨"diminished", "vi°"⟩, ⟨"diminished", "vii°"⟩]

/-- Seventh-chord table of the major scale. -/
def MAJOR_SEVENTHS : List DegreeFormula :=
  [⟨"major7", "Imaj7"⟩, ⟨"minor7", "ii7"⟩, ⟨"minor7", "iii7"⟩, ⟨"major7", "IVmaj7"⟩,
   ⟨"dominant7", "V7"⟩, ⟨"minor7", "vi7"⟩, ⟨"half-diminished7", "viiø7"⟩]

/-- Seventh-chord table of the natural minor scale. -/
def NATURAL_MINOR_SEVENTHS : List DegreeFormula :=
  [⟨"minor7", "i7"⟩, ⟨"half-diminished7", "iiø7"⟩, ⟨"major7", "IIImaj7"⟩,
   ⟨"minor7", "iv7"⟩, ⟨"minor7", "v7"⟩, ⟨"major7", "VImaj7"⟩, ⟨"dominant7", "VII7"⟩]

/-- Seventh-chord table of the harmonic minor scale (minMaj7 and augMaj7
simplified to minor7 and major7 in the source). -/
def HARMONIC_MINOR_SEVENTHS : List DegreeFormula :=
  [⟨"minor7", "i7"⟩, ⟨"half-diminished7", "iiø7"⟩, ⟨"major7", "IIImaj7"⟩,
   ⟨"minor7", "iv7"⟩, ⟨"dominant7", "V7"⟩, ⟨"major7", "VImaj7"⟩, ⟨"diminished7", "vii°7"⟩]

/-- Seventh-chord table of the melodic minor scale. -/
def MELODIC_MINOR_SEVENTHS : List DegreeFormula :=
  [⟨"minor7", "i7"⟩, ⟨"minor7", "ii7"⟩, ⟨"major7", "IIImaj7"⟩, ⟨"dominant7", "IV7"⟩,
   ⟨"dominant7", "V7"⟩, ⟨"half-diminished7", "viø7"⟩, ⟨"half-diminished7", "viiø7"⟩]

/-- MusicTheoryService.getNoteIndex: index of the pitch letter, shifted by
the accidental. The pitch of a valid note is always found, so the JS -1
branch never feeds the modulo here. -/
def getNoteIndex (note : Note) : Int :=
  let index := jsIndexOf CHROMATIC_SCALE note.pitch
  if note.accidental = "#" then (index + 1) % 12
  else if note.accidental = "b" then (index - 1 + 12) % 12
  else index

/-- MusicTheoryService.getNoteAtIndex: sharp spelling from the table, or the
flat of the next letter when useFlats is set. -/
def getNoteAtIndex (index : Int) (useFlats : Bool) : Note :=
  let pitch := CHROMATIC_SCALE.getD index.toNat ""
  if useFlats && strContains pitch '#' then
    let nextPitch := CHROMATIC_SCALE.getD ((index.toNat + 1) % 12) ""
    { pitch := nextPitch, accidental := "b" }
  else { pitch := pitch, accidental := "" }

/-- MusicTheoryService.shouldUseFlats: true iff the root name is in the
fixed flat-key list or the root accidental is flat. -/
def shouldUseFlats (root : Note) : Bool :=
  let flatKeys := ["F", "Bb", "Eb", "Ab", "Db", "Gb", "Cb"]
  flatKeys.contains (GuitarNoteModel.noteToString root) || root.accidental == "b"

/-- MusicTheoryService.calculateScaleNotes. -/
def calculateScaleNotes (root : Note) (scaleType : ScaleType) : List Note :=
  let formula := SCALE_FORMULAS scaleType
  let rootIndex := getNoteIndex root
  let useFlats := shouldUseFlats root
  formula.map (fun interval => getNoteAtIndex ((rootIndex + (interval : Int)) % 12) useFlats)

/-- MusicTheoryService.getTriadFormulas. -/
def getTriadFormulas : ScaleType → List DegreeFormula
  | .major => MAJOR_TRIADS
  | .natural_minor => NATURAL_MINOR_TRIADS
  | .harmonic_minor => HARMONIC_MINOR_TRIADS
  | .melodic_minor => MELODIC_MINOR_TRIADS

/-- MusicTheoryService.getSeventhFormulas. -/
def getSeventhFormulas : ScaleType → List DegreeFormula
  | .major => MAJOR_SEVENTHS
  | .natural_minor => NATURAL_MINOR_SEVENTHS
  | .harmonic_minor => HARMONIC_MINOR_SEVENTHS
  | .melodic_minor => MELODIC_MINOR_SEVENTHS

/-- MusicTheoryService.getChordDisplayName (switch on quality, separate
branches for triads and sevenths). -/
def getChordDisplayName (root : Note) (quality : String) (isSeventh : Bool) : String :=
  let rootName := GuitarNoteModel.noteToString root
  if ! isSeventh then
    if quality = "major" then rootName
    else if quality = "minor" then rootName ++ "m"
    else if quality = "diminished" then rootName ++ "dim"
    else if quality = "augmented" then rootName ++ "aug"
    else rootName
  else
    if quality = "major7" then rootName ++ "maj7"
    else if quality = "minor7" then rootName ++ "m7"
    else if quality = "dominant7" then rootName ++ "7"
    else if quality = "diminished7" then rootName ++ "dim7"
    else if quality = "half-diminished7" then rootName ++ "m7b5"
    else rootName ++ "7"

/-- MusicTheoryService.calculateTriads: triad at degree index i stacks the
scale notes at i, (i+2) mod 7 and (i+4) mod 7. -/
def calculateTriads (scaleNotes : List Note) (scaleType : ScaleType) : List Chord :=
  (getTriadFormulas scaleType).enum.map (fun p =>
    let index := p.1
    let formula := p.2
    let root := scaleNotes.getD index default
    let third := scaleNotes.getD ((index + 2) % 7) default
    let fifth := scaleNotes.getD ((index + 4) % 7) default
    { root := root, quality := formula.quality, notes := [root, third, fifth],
      romanNumeral := formula.roman,
      displayName := getChordDisplayName root formula.quality false })

/-- MusicTheoryService.calculateSevenths: adds the scale note at
(i+6) mod 7. -/
def calculateSevenths (scaleNotes : List Note) (scaleType : ScaleType) : List Chord :=
  (getSeventhFormulas scaleType).enum.map (fun p =>
    let index := p.1
    let formula := p.2
    let root := scaleNotes.getD index default
    let third := scaleNotes.getD ((index + 2) % 7) default
    let fifth := scaleNotes.getD ((index + 4) % 7) default
    let seventh := scaleNotes.getD ((index + 6) % 7) default
    { root := root, quality := formula.quality, notes := [root, third, fifth, seventh],
      romanNumeral := formula.roman,
      displayName := getChordDisplayName root formula.quality true })

/-- Scale record of the models. -/
structure Scale where
  root : Note
  type : ScaleType
  notes : List Note
  chords : List Chord
deriving DecidableEq, Repr

/-- MusicTheoryService.getScale. -/
def getScale (root : Note) (scaleType : ScaleType) : Scale :=
  let scaleNotes := calculateScaleNotes root scaleType
  let triads := calculateTriads scaleNotes scaleType
  let sevenths := calculateSevenths scaleNotes scaleType
  { root := root, type := scaleType, notes := scaleNotes,
    chords := triads ++ sevenths }

end MusicTheory

/-- All octave-less notes in the standard separated format: one of the 7
letters with one of the 3 accidentals. -/
def validRootNotes : List Note :=
  NoteModel.VALID_PITCHES.flatMap (fun p =>
    NoteModel.VALID_ACCIDENTALS.map (fun a => { pitch := p, accidental := a }))

/-- C1: the engine's note-index lookups have no error path at all: on a
pitch-class name missing from the chromatic table they silently return the
default index 0 (C). The chord identifier maps the flat spelling Bb, whose
name is not in its sharp-only table, to 0; the fretboard service maps a
name it cannot recover at all to 0 as well. The spec requires such lookup
misses to raise instead. -/
theorem c1_getNoteIndex_silently_defaults_to_zero :
    ChordIdentifier.getNoteIndex { pitch := "B", accidental := "b" } = 0 ∧
    jsIndexOf ChordIdentifier.CHROMATIC_SCALE "Bb" = -1 ∧
    FretboardService.getNoteIndex { pitch := "H", accidental := "" } = 0 := by
  decide

/-- C3 counterexample: generate(D, natural minor) spells its 6th note A#
(D is not a flat key, so sharps are used), not the claimed Bb, and its
triad at degree index 3 stacks scale indices 3, 5, 0, giving G, A#, D with
quality minor, not the claimed [G, A, Bb]. -/
theorem c3_counterexample :
    (MusicTheory.calculateScaleNotes { pitch := "D", accidental := "" } .natural_minor).getD 5 default
      = { pitch := "A#", accidental := "" } ∧
    GuitarNoteModel.notesEqual { pitch := "A#", accidental := "" }
      { pitch := "B", accidental := "b" } true = false ∧
    ((MusicTheory.calculateTriads
        (MusicTheory.calculateScaleNotes { pitch := "D", accidental := "" } .natural_minor)
        .natural_minor).getD 3 default).notes.map GuitarNoteModel.normalize
      = ["G", "A#", "D"] := by
  decide

/-- C3 amended: generate(D, natural minor) returns [D, E, F, G, A, A#, C]
(sharp spelling, since D is not a flat key), and its 4th triad (degree
index 3, Roman numeral iv) has notes [G, A#, D] and quality minor. -/
theorem c3_d_natural_minor_scale_and_fourth_triad :
    MusicTheory.calculateScaleNotes { pitch := "D", accidental := "" } .natural_minor
      = [{ pitch := "D", accidental := "" }, { pitch := "E", accidental := "" },
         { pitch := "F", accidental := "" }, { pitch := "G", accidental := "" },
         { pitch := "A", accidental := "" }, { pitch := "A#", accidental := "" },
         { pitch := "C", accidental := "" }] ∧
    ((MusicTheory.calculateTriads
        (MusicTheory.calculateScaleNotes { pitch := "D", accidental := "" } .natural_minor)
        .natural_minor).getD 3 default).notes
      = [{ pitch := "G", accidental := "" }, { pitch := "A#", accidental := "" },
         { pitch := "D", accidental := "" }] ∧
    ((MusicTheory.calculateTriads
        (MusicTheory.calculateScaleNotes { pitch := "D", accidental := "" } .natural_minor)
        .natural_minor).getD 3 default).quality = "minor" ∧
    ((MusicTheory.calculateTriads
        (MusicTheory.calculateScaleNotes { pitch := "D", accidental := "" } .natural_minor)
        .natural_minor).getD 3 default).romanNumeral = "iv" := by
  decide

/-- C5 counterexample: the C sharp major scale is spelled with the letter F
twice (F and F#) and the letter C twice (C# and C), so a generated scale
can repeat a letter. -/
theorem c5_counterexample :
    (MusicTheory.calculateScaleNotes { pitch := "C", accidental := "#" } .major).map
        (fun n => n.pitch.take 1)
      = ["C", "D", "F", "F", "G", "A", "C"] ∧
    ¬ ((MusicTheory.calculateScaleNotes { pitch := "C", accidental := "#" } .major).map
        (fun n => n.pitch.take 1)).Nodup := by
  decide

/-- Finite check behind the amended C5: over every octave-less valid root
and every scale kind, the generated scale has exactly 7 notes and their
chromatic indices are pairwise distinct. -/
theorem calculateScaleNotes_length_nodup :
    ∀ root ∈ validRootNotes, ∀ kind ∈ ScaleType.all,
      (MusicTheory.calculateScaleNotes root kind).length = 7 ∧
      ((MusicTheory.calculateScaleNotes root kind).map MusicTheory.getNoteIndex).Nodup := by
  decide

/-- C5 amended: for every valid root pitch and scale kind, generate returns
exactly 7 notes and no two of them share a chromatic pitch class; the
original no-duplicate-letter statement fails (see the C# major scale). -/
theorem c5_seven_distinct_pitch_classes (root : Note) (kind : ScaleType)
    (h : root ∈ validRootNotes) :
    (MusicTheory.calculateScaleNotes root kind).length = 7 ∧
    ((MusicTheory.calculateScaleNotes root kind).map MusicTheory.getNoteIndex).Nodup :=
  calculateScaleNotes_length_nodup root h kind (by cases kind <;> decide)

/-- C5 witness: the amended statement at the concrete root D, natural
minor. -/
theorem c5_witness :
    (MusicTheory.calculateScaleNotes { pitch := "D", accidental := "" } .natural_minor).length = 7 ∧
    ((MusicTheory.calculateScaleNotes { pitch := "D", accidental := "" } .natural_minor).map
      MusicTheory.getNoteIndex).Nodup :=
  c5_seven_distinct_pitch_classes { pitch := "D", accidental := "" } .natural_minor (by decide)

/-- C6 counterexample: for the flat-spelled root Cb the first generated
note is spelled B, which is not letter-plus-accidental equal to the root
under either note model's pitch-class equality (it is only enharmonically
equal). -/
theorem c6_counterexample :
    (MusicTheory.calculateScaleNotes { pitch := "C", accidental := "b" } .major).headD default
      = { pitch := "B", accidental := "" } ∧
    GuitarNoteModel.notesEqual { pitch := "B", accidental := "" }
      { pitch := "C", accidental := "b" } true = false ∧
    NoteModel.notesEqual { pitch := "B", accidental := "" }
      { pitch := "C", accidental := "b" } true = false := by
  decide

/-- Finite check behind the amended C6: over every octave-less valid root
and every scale kind, the chromatic index of each generated note is the
root index plus the formula offset, modulo 12, and in particular the first
note is enharmonically equal to the root. -/
theorem calculateScaleNotes_offsets :
    ∀ root ∈ validRootNotes, ∀ kind ∈ ScaleType.all,
      (MusicTheory.calculateScaleNotes root kind).map MusicTheory.getNoteIndex
        = (MusicTheory.SCALE_FORMULAS kind).map
            (fun offset => (MusicTheory.getNoteIndex root + (offset : Int)) % 12) ∧
      MusicTheory.getNoteIndex ((MusicTheory.calculateScaleNotes root kind).headD default)
        = MusicTheory.getNoteIndex root := by
  decide

/-- C6 amended: for every valid root (including flat-spelled roots such as
Cb) and every kind, notes[0] is enharmonically equal to the root (same
chromatic index) and each notes[i] lies at the interval-formula offset from
the root modulo 12; spelled letter-plus-accidental equality of notes[0]
with the root fails for Cb, which comes back as B. -/
theorem c6_scale_offsets_from_root (root : Note) (kind : ScaleType)
    (h : root ∈ validRootNotes) :
    ((MusicTheory.calculateScaleNotes root kind).map MusicTheory.getNoteIndex
      = (MusicTheory.SCALE_FORMULAS kind).map
          (fun offset => (MusicTheory.getNoteIndex root + (offset : Int)) % 12)) ∧
    MusicTheory.getNoteIndex ((MusicTheory.calculateScaleNotes root kind).headD default)
      = MusicTheory.getNoteIndex root :=
  calculateScaleNotes_offsets root h kind (by cases kind <;> decide)

/-- C6 witness: the amended statement at the concrete flat-spelled root Cb
with the major kind. -/
theorem c6_witness :
    ((MusicTheory.calculateScaleNotes { pitch := "C", accidental := "b" } .major).map
        MusicTheory.getNoteIndex
      = (MusicTheory.SCALE_FORMULAS .major).map
          (fun offset =>
            (MusicTheory.getNoteIndex { pitch := "C", accidental := "b" } + (offset : Int)) % 12)) ∧
    MusicTheory.getNoteIndex
        ((MusicTheory.calculateScaleNotes { pitch := "C", accidental := "b" } .major).headD default)
      = MusicTheory.getNoteIndex { pitch := "C", accidental := "b" } :=
  c6_scale_offsets_from_root { pitch := "C", accidental := "b" } .major (by decide)

/-- Every match in the output of identifyChords passed the hard-coded
confidence filter strictly above 0.5. -/
theorem mem_identifyChords_half_lt {input : List Note} {m : ChordIdentifier.ChordMatch}
    (h : m ∈ ChordIdentifier.identifyChords input) : (0.5 : ℚ) < m.confidence := by
  simp only [ChordIdentifier.identifyChords] at h
  split_ifs at h with h1 h2
  · simp at h
  · simp at h
  · rw [(List.perm_insertionSort _ _).mem_iff, List.mem_flatMap] at h
    obtain ⟨root, -, hroot⟩ := h
    rw [List.mem_filterMap] at hroot
    obtain ⟨qf, -, hqf⟩ := hroot
    split at hqf
    · split at hqf
      · cases hqf
        assumption
      · cases hqf
    · cases hqf

/-- C2 counterexample: matchChord does produce a candidate with confidence
in (0, 0.5] (C minor against the input C, E scores 11/60), yet no call of
identifyChords ever returns such a candidate: the 0.5 cutoff sits inside
the identification algorithm, not in its callers. -/
theorem c2_counterexample :
    ((ChordIdentifier.matchChord { pitch := "C", accidental := "" } "minor" [0, 3, 7]
        [{ pitch := "C", accidental := "" }, { pitch := "E", accidental := "" }]).map
      (fun mm => decide ((0 : ℚ) < mm.confidence ∧ mm.confidence ≤ 0.5))) = some true ∧
    ¬ ∃ (input : List Note) (m : ChordIdentifier.ChordMatch),
        m ∈ ChordIdentifier.identifyChords input ∧
        (0 : ℚ) < m.confidence ∧ m.confidence ≤ 0.5 := by
  refine ⟨by decide, ?_⟩
  rintro ⟨input, m, hmem, -, hle⟩
  exact absurd hle (not_le.mpr (mem_identifyChords_half_lt hmem))

/-- C2 amended: identifyChords itself applies the 0.5 reporting threshold:
every candidate it returns has confidence strictly greater than 0.5, so the
returned list never contains a candidate with confidence in (0, 0.5], even
though matchChord produces such candidates. -/
theorem c2_identifyChords_hard_threshold (input : List Note)
    (m : ChordIdentifier.ChordMatch) (h : m ∈ ChordIdentifier.identifyChords input) :
    (0.5 : ℚ) < m.confidence :=
  mem_identifyChords_half_lt h

/-- C2 witness: the amended statement at the concrete input C, E, applied
to the first returned match. -/
theorem c2_witness :
    (0.5 : ℚ) < ((ChordIdentifier.identifyChords
      [{ pitch := "C", accidental := "" }, { pitch := "E", accidental := "" }]).headD
        default).confidence :=
  c2_identifyChords_hard_threshold
    [{ pitch := "C", accidental := "" }, { pitch := "E", accidental := "" }] _ (by decide)

/-- C7: identifyChords on C, E, G ranks first a match with root C, quality
major and confidence exactly 1. -/
theorem c7_identify_c_major_first :
    ((ChordIdentifier.identifyChords
        [{ pitch := "C", accidental := "" }, { pitch := "E", accidental := "" },
         { pitch := "G", accidental := "" }]).head?.map
      (fun m => (m.chord.root, m.chord.quality, m.confidence))) =
    some ({ pitch := "C", accidental := "" }, "major", 1) := by
  decide

/-- Confidence scores are never negative: Math.max with 0 floors them. -/
theorem confidenceScore_nonneg (matched total extra : Nat) :
    0 ≤ ChordIdentifier.confidenceScore matched total extra := by
  simp only [ChordIdentifier.confidenceScore, ChordIdentifier.jsMax]
  split_ifs with h
  · exact h
  · exact le_refl 0

/-- Confidence scores never exceed 1 when at most all chord notes are
matched. -/
theorem confidenceScore_le_one {matched total : Nat} (extra : Nat)
    (hmt : matched ≤ total) :
    ChordIdentifier.confidenceScore matched total extra ≤ 1 := by
  have hratio : (matched : ℚ) / (total : ℚ) ≤ 1 := by
    rcases Nat.eq_zero_or_pos total with h0 | hpos
    · subst h0
      simp [Nat.le_zero.mp hmt]
    · rw [div_le_one (by exact_mod_cast hpos)]
      exact_mod_cast hmt
  have hpen : 0 ≤ (extra : ℚ) * 0.15 := by positivity
  simp only [ChordIdentifier.confidenceScore, ChordIdentifier.jsMax]
  split_ifs with h
  · linarith
  · norm_num

/-- With the matched count fixed, the confidence score does not increase
when the number of extra notes grows. -/
theorem confidenceScore_anti (matched total : Nat) {e1 e2 : Nat} (h : e1 ≤ e2) :
    ChordIdentifier.confidenceScore matched total e2 ≤
      ChordIdentifier.confidenceScore matched total e1 := by
  have hc : (e1 : ℚ) ≤ (e2 : ℚ) := by exact_mod_cast h
  have hmul : (e1 : ℚ) * 0.15 ≤ (e2 : ℚ) * 0.15 :=
    mul_le_mul_of_nonneg_right hc (by norm_num)
  simp only [ChordIdentifier.confidenceScore, ChordIdentifier.jsMax]
  split_ifs with h1 h2 h2 <;> linarith

/-- With the matched count fixed and a strictly positive score, the score
strictly decreases when the number of extra notes strictly grows. -/
theorem confidenceScore_strict_anti (matched total : Nat) {e1 e2 : Nat} (h : e1 < e2)
    (hpos : 0 < ChordIdentifier.confidenceScore matched total e1) :
    ChordIdentifier.confidenceScore matched total e2 <
      ChordIdentifier.confidenceScore matched total e1 := by
  have hc : (e1 : ℚ) < (e2 : ℚ) := by exact_mod_cast h
  have hmul : (e1 : ℚ) * 0.15 < (e2 : ℚ) * 0.15 :=
    mul_lt_mul_of_pos_right hc (by norm_num)
  revert hpos
  simp only [ChordIdentifier.confidenceScore, ChordIdentifier.jsMax]
  split_ifs with h1 h2 h2 <;> intro hpos <;> linarith

/-- Every match returned by matchChord carries the confidence score of a
matched count that is at most the chord-note count. -/
theorem matchChord_confidence_shape {root : Note} {quality : String}
    {formula : List Nat} {selectedNotes : List Note} {m : ChordIdentifier.ChordMatch}
    (h : ChordIdentifier.matchChord root quality formula selectedNotes = some m) :
    ∃ matched total extra : Nat, matched ≤ total ∧
      m.confidence = ChordIdentifier.confidenceScore matched total extra := by
  simp only [ChordIdentifier.matchChord] at h
  split_ifs at h with h0
  obtain rfl := Option.some.inj h
  exact ⟨_, _, _, List.length_filter_le _ _, rfl⟩

/-- C8: the confidence of every candidate produced by matchChord lies in
[0, 1], and holding the matched count (and chord size) fixed the confidence
score is non-increasing in the number of extra notes, strictly decreasing
while it is still positive. -/
theorem c8_confidence_bounds_and_monotone :
    (∀ (root : Note) (quality : String) (formula : List Nat)
        (selectedNotes : List Note) (m : ChordIdentifier.ChordMatch),
        ChordIdentifier.matchChord root quality formula selectedNotes = some m →
        0 ≤ m.confidence ∧ m.confidence ≤ 1) ∧
    (∀ matched total e1 e2 : Nat, e1 ≤ e2 →
        ChordIdentifier.confidenceScore matched total e2 ≤
          ChordIdentifier.confidenceScore matched total e1) ∧
    (∀ matched total e1 e2 : Nat, e1 < e2 →
        0 < ChordIdentifier.confidenceScore matched total e1 →
        ChordIdentifier.confidenceScore matched total e2 <
          ChordIdentifier.confidenceScore matched total e1) := by
  refine ⟨?_, ?_, ?_⟩
  · intro root quality formula selectedNotes m h
    obtain ⟨matched, total, extra, hle, heq⟩ := matchChord_confidence_shape h
    rw [heq]
    exact ⟨confidenceScore_nonneg matched total extra, confidenceScore_le_one extra hle⟩
  · intro matched total e1 e2 h
    exact confidenceScore_anti matched total h
  · intro matched total e1 e2 h hpos
    exact confidenceScore_strict_anti matched total h hpos

/-- C8 witness: the monotone part of the statement applied at the concrete
counts matched 2, total 3 and extra counts 1 and 3. -/
theorem c8_witness :
    ChordIdentifier.confidenceScore 2 3 3 ≤ ChordIdentifier.confidenceScore 2 3 1 :=
  c8_confidence_bounds_and_monotone.2.1 2 3 1 3 (by norm_num)

/-- Twelve frets up on any open string, the chromatic index wraps and the
octave term grows by one. -/
theorem getNoteAtFret_add_twelve (openString : Note) (fret : Nat) :
    (FretboardService.getNoteAtFret openString (fret + 12)).pitch
      = (FretboardService.getNoteAtFret openString fret).pitch ∧
    (FretboardService.getNoteAtFret openString (fret + 12)).accidental
      = (FretboardService.getNoteAtFret openString fret).accidental ∧
    (FretboardService.getNoteAtFret openString (fret + 12)).octave
      = (FretboardService.getNoteAtFret openString fret).octave.map (fun o => o + 1) := by
  have h1 : (FretboardService.getNoteIndex openString + (fret + 12)) % 12
      = (FretboardService.getNoteIndex openString + fret) % 12 := by omega
  have h2 : (FretboardService.getNoteIndex openString + (fret + 12)) / 12
      = (FretboardService.getNoteIndex openString + fret) / 12 + 1 := by omega
  simp only [FretboardService.getNoteAtFret, FretboardService.calculateOctave, h1, h2]
  refine ⟨trivial, trivial, ?_⟩
  simp only [Option.map_some', Option.some.injEq]
  push_cast
  ring

/-- C9: on every string of the standard tuning, the note twelve frets above
any fret has the same pitch class (pitch and accidental spelling) and an
octave exactly one greater. -/
theorem c9_same_pitch_class_octave_up (stringNum fret : Nat)
    (hs1 : 1 ≤ stringNum) (hs2 : stringNum ≤ 6) :
    (FretboardService.getNoteAtPosition stringNum (fret + 12)).pitch
      = (FretboardService.getNoteAtPosition stringNum fret).pitch ∧
    (FretboardService.getNoteAtPosition stringNum (fret + 12)).accidental
      = (FretboardService.getNoteAtPosition stringNum fret).accidental ∧
    (FretboardService.getNoteAtPosition stringNum (fret + 12)).octave
      = (FretboardService.getNoteAtPosition stringNum fret).octave.map (fun o => o + 1) := by
  unfold FretboardService.getNoteAtPosition
  exact getNoteAtFret_add_twelve _ _

/-- C9 witness: the statement at string 5 (the A string), fret 3. -/
theorem c9_witness :
    (FretboardService.getNoteAtPosition 5 (3 + 12)).pitch
      = (FretboardService.getNoteAtPosition 5 3).pitch ∧
    (FretboardService.getNoteAtPosition 5 (3 + 12)).accidental
      = (FretboardService.getNoteAtPosition 5 3).accidental ∧
    (FretboardService.getNoteAtPosition 5 (3 + 12)).octave
      = (FretboardService.getNoteAtPosition 5 3).octave.map (fun o => o + 1) :=
  c9_same_pitch_class_octave_up 5 3 (by norm_num) (by norm_num)

/-- Normalization in the guitar-chord-app notesEqual on a standard
separated-format note is just pitch concatenated with accidental, whatever
the octave. -/
theorem ga_normalize_valid {p : String} (hp : p ∈ NoteModel.VALID_PITCHES)
    (a : String) (o : Option Int) :
    GuitarNoteModel.normalize { pitch := p, accidental := a, octave := o } = p ++ a := by
  simp only [NoteModel.VALID_PITCHES] at hp
  fin_cases hp <;> rfl

/-- NoteFactory.normalize leaves a standard separated-format note
unchanged, whatever the octave. -/
theorem nf_normalize_valid {p : String} (hp : p ∈ NoteModel.VALID_PITCHES)
    (a : String) (o : Option Int) :
    NoteModel.normalize { pitch := p, accidental := a, octave := o }
      = { pitch := p, accidental := a, octave := o } := by
  simp only [NoteModel.VALID_PITCHES] at hp
  fin_cases hp <;> rfl

/-- Finite check behind C10: two valid spellings with different letters
never agree, either as concatenated names or letter to letter. -/
theorem c10_core :
    ∀ p1 ∈ NoteModel.VALID_PITCHES, ∀ p2 ∈ NoteModel.VALID_PITCHES,
    ∀ a1 ∈ NoteModel.VALID_ACCIDENTALS, ∀ a2 ∈ NoteModel.VALID_ACCIDENTALS,
      p1 ≠ p2 → ((p1 ++ a1 == p2 ++ a2) = false ∧ (p1 == p2) = false) := by
  decide

/-- C10: two notes that denote the same chromatic pitch class but are
spelled with different letters (such as C# and Db) are never equated: both
note models' notesEqual return false in the octave-ignoring and the
absolute mode, and so does the chord identifier's internal comparison. -/
theorem c10_enharmonic_spellings_not_equal
    (p1 a1 p2 a2 : String) (o1 o2 : Option Int) (ignoreOctave : Bool)
    (hp1 : p1 ∈ NoteModel.VALID_PITCHES) (ha1 : a1 ∈ NoteModel.VALID_ACCIDENTALS)
    (hp2 : p2 ∈ NoteModel.VALID_PITCHES) (ha2 : a2 ∈ NoteModel.VALID_ACCIDENTALS)
    (hclass : MusicTheory.getNoteIndex { pitch := p1, accidental := a1 }
      = MusicTheory.getNoteIndex { pitch := p2, accidental := a2 })
    (hletter : p1 ≠ p2) :
    GuitarNoteModel.notesEqual { pitch := p1, accidental := a1, octave := o1 }
      { pitch := p2, accidental := a2, octave := o2 } ignoreOctave = false ∧
    NoteModel.notesEqual { pitch := p1, accidental := a1, octave := o1 }
      { pitch := p2, accidental := a2, octave := o2 } ignoreOctave = false ∧
    ChordIdentifier.notesEqual { pitch := p1, accidental := a1, octave := o1 }
      { pitch := p2, accidental := a2, octave := o2 } = false := by
  obtain ⟨hplus, hbeq⟩ := c10_core p1 hp1 p2 hp2 a1 ha1 a2 ha2 hletter
  refine ⟨?_, ?_, ?_⟩
  · simp only [GuitarNoteModel.notesEqual]
    rw [ga_normalize_valid hp1, ga_normalize_valid hp2]
    cases ignoreOctave <;> simp [hplus]
  · simp only [NoteModel.notesEqual]
    rw [nf_normalize_valid hp1, nf_normalize_valid hp2]
    cases ignoreOctave <;> simp [hbeq]
  · simp only [ChordIdentifier.notesEqual]
    simp [hbeq]

/-- C10 witness: the statement at the enharmonic pair C# and Db, octave 4
against octave 3, in the octave-ignoring mode. -/
theorem c10_witness :
    GuitarNoteModel.notesEqual { pitch := "C", accidental := "#", octave := some 4 }
      { pitch := "D", accidental := "b", octave := some 3 } true = false ∧
    NoteModel.notesEqual { pitch := "C", accidental := "#", octave := some 4 }
      { pitch := "D", accidental := "b", octave := some 3 } true = false ∧
    ChordIdentifier.notesEqual { pitch := "C", accidental := "#", octave := some 4 }
      { pitch := "D", accidental := "b", octave := some 3 } = false :=
  c10_enharmonic_spellings_not_equal "C" "#" "D" "b" (some 4) (some 3) true
    (by decide) (by decide) (by decide) (by decide) (by decide) (by decide)

/-- Capture groups of a successful pattern match are a valid pitch letter
and a valid accidental, so NoteFactory.create accepts them. -/
theorem matchNoteChars_valid {l : List Char} {p a d : String}
    (h : NoteModel.matchNoteChars l = some (p, a, d)) :
    NoteModel.VALID_PITCHES.contains p = true ∧
    NoteModel.VALID_ACCIDENTALS.contains a = true := by
  match l with
  | [] => exact Option.noConfusion h
  | [c] =>
    simp only [NoteModel.matchNoteChars] at h
    split_ifs at h with hc
    simp only [Option.some.injEq, Prod.mk.injEq] at h
    obtain ⟨hp, ha, -⟩ := h
    subst hp
    subst ha
    have hcmem : c ∈ ['A', 'B', 'C', 'D', 'E', 'F', 'G'] := by simpa using hc
    exact ⟨by fin_cases hcmem <;> decide, by decide⟩
  | c :: c2 :: rest2 =>
    simp only [NoteModel.matchNoteChars] at h
    split_ifs at h with hc h2 h3 h4 <;> try exact Option.noConfusion h
    all_goals (
      simp only [Option.some.injEq, Prod.mk.injEq] at h
      obtain ⟨hp, ha, -⟩ := h
      subst hp
      subst ha
      have hcmem : c ∈ ['A', 'B', 'C', 'D', 'E', 'F', 'G'] := by simpa using hc
      refine ⟨by fin_cases hcmem <;> decide, ?_⟩
      first
        | (rcases h2 with rfl | rfl <;> decide)
        | decide)

/-- Valid capture groups, stated at the string level. -/
theorem matchNoteString_valid {s p a d : String}
    (h : NoteModel.matchNoteString s = some (p, a, d)) :
    NoteModel.VALID_PITCHES.contains p = true ∧
    NoteModel.VALID_ACCIDENTALS.contains a = true :=
  matchNoteChars_valid h

/-- C4 counterexample: the parsed octave 9 is outside the documented 0-8
range (isValid rejects it), yet fromString returns the note instead of
raising: an out-of-range octave only triggers a console warning. -/
theorem c4_counterexample :
    NoteModel.fromString "C9"
      = .ok { pitch := "C", accidental := "", octave := some 9 } ∧
    NoteModel.isValid { pitch := "C", accidental := "", octave := some 9 } = false :=
  ⟨rfl, rfl⟩

/-- C4 amended: fromString fails exactly when the string does not match the
pattern of a letter A-G, an optional sharp or flat, and a digit tail; an
out-of-range octave is not an error (the note is returned, with only a
console warning). -/
theorem c4_fromString_error_iff_no_match (s : String) :
    (NoteModel.fromString s).isOk = (NoteModel.matchNoteString s).isSome := by
  cases h : NoteModel.matchNoteString s with
  | none => simp [NoteModel.fromString, h, Except.isOk, Except.toBool]
  | some t =>
    obtain ⟨p, a, d⟩ := t
    obtain ⟨hp, ha⟩ := matchNoteString_valid h
    have hpm : p ∈ NoteModel.VALID_PITCHES := by simpa using hp
    have ham : a ∈ NoteModel.VALID_ACCIDENTALS := by simpa using ha
    simp [NoteModel.fromString, h, NoteModel.create, hp, ha, hpm, ham,
      Except.isOk, Except.toBool]

/-- C4 witness: the amended statement at the concrete string Bb3. -/
theorem c4_witness :
    (NoteModel.fromString "Bb3").isOk = (NoteModel.matchNoteString "Bb3").isSome :=
  c4_fromString_error_iff_no_match "Bb3"
